import Mathlib

/-!
# Verification of the graph-pes atomic-graph core

A shallow embedding of the atomic-graph representation, neighbour-list
construction, batching and prediction layers of the `graph-pes` repository,
together with proofs of the spec's claims about them.

Real-valued tensors are modelled over `ℚ` (exact arithmetic); distance
comparisons `‖v‖ ≤ cutoff` are phrased on squared norms, which is equivalent
for non-negative cutoffs and keeps every predicate decidable.

Core's `Rat` operations are irreducible to the elaborator, which blocks
`decide` on concrete rational arithmetic; they are kernel-reducible, so we
restore semireducibility locally to let concrete evaluations go through.
-/

set_option allowUnsafeReducibility true

attribute [local semireducible] Rat.add Rat.mul Rat.sub Rat.div Rat.neg Rat.blt Rat.normalize Rat.inv

/-- A 3-vector of rationals (one Cartesian position / displacement). -/
structure Vec3 where
  x : ℚ
  y : ℚ
  z : ℚ
deriving DecidableEq, Repr

instance : Zero Vec3 := ⟨⟨0, 0, 0⟩⟩

def Vec3.add (a b : Vec3) : Vec3 := ⟨a.x + b.x, a.y + b.y, a.z + b.z⟩

instance : Add Vec3 := ⟨Vec3.add⟩

def Vec3.sub (a b : Vec3) : Vec3 := ⟨a.x - b.x, a.y - b.y, a.z - b.z⟩

instance : Sub Vec3 := ⟨Vec3.sub⟩

/-- Scalar multiplication of a 3-vector. -/
def Vec3.smul (q : ℚ) (v : Vec3) : Vec3 := ⟨q * v.x, q * v.y, q * v.z⟩

/-- Squared Euclidean norm. -/
def Vec3.sqNorm (v : Vec3) : ℚ := v.x * v.x + v.y * v.y + v.z * v.z

def Vec3.toList (v : Vec3) : List ℚ := [v.x, v.y, v.z]

/-- An integer 3-vector (a periodic cell shift / repeat count). -/
structure IVec3 where
  x : ℤ
  y : ℤ
  z : ℤ
deriving DecidableEq, Repr

instance : Zero IVec3 := ⟨⟨0, 0, 0⟩⟩

/-- Squared norm of an integer shift (counts how far a periodic image is). -/
def IVec3.sqNorm (s : IVec3) : ℤ := s.x * s.x + s.y * s.y + s.z * s.z

/-- A 3×3 lattice-vector matrix; rows are the three cell vectors.
All-zero when the structure is non-periodic. -/
structure Cell where
  a : Vec3
  b : Vec3
  c : Vec3
deriving DecidableEq, Repr

instance : Zero Cell := ⟨⟨0, 0, 0⟩⟩

/-- `shifts[e] @ cell`: the Cartesian offset of the periodic image reached by
integer repeats `s` of the lattice vectors. -/
def shiftTimesCell (s : IVec3) (cell : Cell) : Vec3 :=
  Vec3.smul (s.x : ℚ) cell.a + Vec3.smul (s.y : ℚ) cell.b + Vec3.smul (s.z : ℚ) cell.c

/-- A diagonal (orthorhombic) cell with the given edge lengths. -/
def diagCell (a b c : ℚ) : Cell :=
  ⟨⟨a, 0, 0⟩, ⟨0, b, 0⟩, ⟨0, 0, c⟩⟩

/-- One neighbour pair: source atom `i`, target atom `j`, and the integer
periodic repeat separating their images. -/
structure Edge where
  i : ℕ
  j : ℕ
  shift : IVec3
deriving DecidableEq, Repr

/-- Derived, never stored (§3): `positions[j] + shifts[e] @ cell - positions[i]`. -/
def neighbourVector (pos : List Vec3) (cell : Cell) (e : Edge) : Vec3 :=
  pos.getD e.j 0 + shiftTimesCell e.shift cell - pos.getD e.i 0

/-- Modelled from the spec (§4.2): the periodic bounding range enumerates all
integer repeats with each component in `[-R, R]`, in lexicographic order (the
builder must be deterministic and order-stable). -/
def allShifts (R : ℕ) : List IVec3 :=
  (List.range (2 * R + 1)).flatMap fun a =>
    (List.range (2 * R + 1)).flatMap fun b =>
      (List.range (2 * R + 1)).map fun c =>
        ⟨(a : ℤ) - R, (b : ℤ) - R, (c : ℤ) - R⟩

/-- Modelled from the spec (§4.2, `build(positions, cell, pbc, cutoff)`), which
is absent from `src/` (only its tests are):
non-periodic — include `(i, j)`, `i ≠ j`, whenever distance ≤ cutoff, shift 0;
periodic — for every repeat in a bounding range sufficient to cover the cutoff
(the spec leaves the range derivation open, §9, so the sufficient range `R` is
taken as a parameter), include `(i, j, repeat)` whenever the shifted distance
≤ cutoff, excluding only the degenerate `i = j` at zero repeat.
Distance ≤ cutoff is compared on squares. -/
def buildNeighbourList (pos : List Vec3) (cell : Cell) (periodic : Bool)
    (cutoff : ℚ) (R : ℕ) : List Edge :=
  let n := pos.length
  if periodic then
    (allShifts R).flatMap fun s =>
      (List.range n).flatMap fun i =>
        (List.range n).filterMap fun j =>
          if i = j ∧ s = (0 : IVec3) then none
          else if Vec3.sqNorm (neighbourVector pos cell ⟨i, j, s⟩) ≤ cutoff * cutoff then
            some ⟨i, j, s⟩
          else none
  else
    (List.range n).flatMap fun i =>
      (List.range n).filterMap fun j =>
        if i = j then none
        else if Vec3.sqNorm (neighbourVector pos cell ⟨i, j, 0⟩) ≤ cutoff * cutoff then
          some ⟨i, j, (0 : IVec3)⟩
        else none

/-- Modelled from the spec (§3): the immutable AtomicGraph value object.
Derived geometry (`neighbour_vectors`, `neighbour_distances`) is never stored;
it is recomputed from `positions`, `cell` and the per-edge shifts. -/
structure AtomicGraph where
  Z : List ℕ
  positions : List Vec3
  cell : Cell
  edges : List Edge
deriving DecidableEq, Repr

def AtomicGraph.n_atoms (g : AtomicGraph) : ℕ := g.Z.length

def AtomicGraph.n_edges (g : AtomicGraph) : ℕ := g.edges.length

/-- `has_cell`: whether a (nonzero) periodic cell is present. -/
def AtomicGraph.has_cell (g : AtomicGraph) : Bool := decide (g.cell ≠ (0 : Cell))

/-- The derived per-edge vectors of a graph (§3 `neighbour_vectors`). -/
def AtomicGraph.neighbourVectors (g : AtomicGraph) : List Vec3 :=
  g.edges.map (neighbourVector g.positions g.cell)

/-- Modelled from the spec (§2, §4.2): `convert_to_atomic_graph`, absent from
`src/` — runs the neighbour-list builder on an external structure.  The cell is
all-zero when non-periodic. -/
def convertToAtomicGraph (Z : List ℕ) (pos : List Vec3) (periodic : Bool)
    (cell : Cell) (cutoff : ℚ) (R : ℕ) : AtomicGraph :=
  let usedCell := if periodic then cell else 0
  { Z := Z
    positions := pos
    cell := usedCell
    edges := buildNeighbourList pos usedCell periodic cutoff R }

/-! ## Prediction layer (spec §4.5), modelled from the spec

The model architectures are out of the repository slice under `src/`; the
Lennard-Jones pair potential used by the prediction tests is modelled from the
spec's contract: energy is a sum of per-edge pair contributions, forces are the
exact (symbolically differentiated) negative gradient `-dE/dR`, and stress the
exact strain derivative `dE/dstrain` scaled by inverse cell volume. -/

/-- A 3×3 matrix of rationals (a stress tensor / virial), rows `r0 r1 r2`. -/
structure Mat3 where
  r0 : Vec3
  r1 : Vec3
  r2 : Vec3
deriving DecidableEq, Repr

instance : Zero Mat3 := ⟨⟨0, 0, 0⟩⟩

def Mat3.add (m n : Mat3) : Mat3 := ⟨m.r0 + n.r0, m.r1 + n.r1, m.r2 + n.r2⟩

instance : Add Mat3 := ⟨Mat3.add⟩

def Mat3.smul (q : ℚ) (m : Mat3) : Mat3 :=
  ⟨Vec3.smul q m.r0, Vec3.smul q m.r1, Vec3.smul q m.r2⟩

/-- Outer product `v ⊗ w`. -/
def Mat3.outer (v w : Vec3) : Mat3 :=
  ⟨Vec3.smul v.x w, Vec3.smul v.y w, Vec3.smul v.z w⟩

def Mat3.toLists (m : Mat3) : List (List ℚ) := [m.r0.toList, m.r1.toList, m.r2.toList]

def Vec3.dot (a b : Vec3) : ℚ := a.x * b.x + a.y * b.y + a.z * b.z

def Vec3.cross (a b : Vec3) : Vec3 :=
  ⟨a.y * b.z - a.z * b.y, a.z * b.x - a.x * b.z, a.x * b.y - a.y * b.x⟩

/-- Cell volume: the determinant `a ⋅ (b × c)`. -/
def Cell.volume (c : Cell) : ℚ := Vec3.dot c.a (Vec3.cross c.b c.c)

/-- Sum of a list of 3-vectors. -/
def vecSum (l : List Vec3) : Vec3 := l.foldr Vec3.add 0

/-- Sum of a list of 3×3 matrices. -/
def matSum (l : List Mat3) : Mat3 := l.foldr Mat3.add 0

/-- Modelled from the spec: the Lennard-Jones pair energy (ε = σ = 1) as a
function of the squared distance `s = r²`:
`4 ((σ/r)¹² - (σ/r)⁶) = 4 (s⁻⁶ - s⁻³)`. -/
def ljPair (s : ℚ) : ℚ :=
  let i := 1 / s
  let i3 := i * i * i
  4 * (i3 * i3 - i3)

/-- The exact derivative of `ljPair` with respect to the squared distance:
`4 (-6 s⁻⁷ + 3 s⁻⁴)`. -/
def ljPairD (s : ℚ) : ℚ :=
  let i := 1 / s
  let i2 := i * i
  let i4 := i2 * i2
  4 * (-(6 : ℚ) * (i4 * i2 * i) + 3 * i4)

/-- The three physical properties of the prediction contract (§4.5). -/
inductive Property where
  | energy
  | forces
  | stress
deriving DecidableEq, Repr

/-- A returned prediction tensor; `shape` recovers the spec's shape rules. -/
inductive Tensor where
  | scalar (v : ℚ)
  | vector (v : List ℚ)
  | matrix (m : List (List ℚ))
  | tensor3 (t : List (List (List ℚ)))
deriving DecidableEq, Repr

def Tensor.shape : Tensor → List ℕ
  | .scalar _ => []
  | .vector v => [v.length]
  | .matrix m => [m.length, (m.headD []).length]
  | .tensor3 t => [t.length, (t.headD []).length, ((t.headD []).headD []).length]

/-- Per-atom local energies: each directed edge `(i, j)` contributes half the
pair energy to atom `i` (each pair appears in both directions). `cellFor`
selects the cell governing an edge (constant on a single graph, per-structure
on a batch). -/
def atomEnergies (pos : List Vec3) (cellFor : Edge → Cell) (edges : List Edge)
    (n : ℕ) : List ℚ :=
  (List.range n).map fun k =>
    ((edges.filter fun e => e.i = k).map fun e =>
      ljPair (Vec3.sqNorm (neighbourVector pos (cellFor e) e)) / 2).sum

/-- The exact force on atom `k`: `-dE/dR_k`, differentiated symbolically.
For `E = Σ_e φ(s_e)/2` with `s_e = ‖x_j + S_e - x_i‖²`,
`F_k = -Σ_e φ'(s_e) (δ_{jk} - δ_{ik}) v_e`. -/
def forceOn (pos : List Vec3) (cellFor : Edge → Cell) (edges : List Edge)
    (k : ℕ) : Vec3 :=
  Vec3.smul (-1) (vecSum (edges.map fun e =>
    let v := neighbourVector pos (cellFor e) e
    let dj : ℚ := if e.j = k then 1 else 0
    let di : ℚ := if e.i = k then 1 else 0
    Vec3.smul (ljPairD (Vec3.sqNorm v) * (dj - di)) v))

/-- The exact strain derivative of the pair energy over a set of edges:
`dE/dε = Σ_e φ'(s_e) v_e ⊗ v_e`. -/
def virial (pos : List Vec3) (cellFor : Edge → Cell) (edges : List Edge) : Mat3 :=
  matSum (edges.map fun e =>
    let v := neighbourVector pos (cellFor e) e
    Mat3.smul (ljPairD (Vec3.sqNorm v)) (Mat3.outer v v))

/-- Total energy of a single graph. -/
def AtomicGraph.energy (g : AtomicGraph) : ℚ :=
  (atomEnergies g.positions (fun _ => g.cell) g.edges g.n_atoms).sum

/-- Per-atom forces of a single graph. -/
def AtomicGraph.forces (g : AtomicGraph) : List Vec3 :=
  (List.range g.n_atoms).map (forceOn g.positions (fun _ => g.cell) g.edges)

/-- Stress of a single graph: `dE/dstrain` scaled by the inverse cell volume. -/
def AtomicGraph.stress (g : AtomicGraph) : Mat3 :=
  Mat3.smul (1 / g.cell.volume) (virial g.positions (fun _ => g.cell) g.edges)

/-- Modelled from the spec (§4.5): `model.predict` on a single graph returns a
mapping from property to tensor.  Stress is only derivable (and its key only
present) when the graph has a non-trivial cell; a stress request on a cell-less
graph surfaces as the lookup failing to produce the key (`MissingCellError` /
`KeyError`). -/
def predict (g : AtomicGraph) : List (Property × Tensor) :=
  [(Property.energy, Tensor.scalar g.energy),
   (Property.forces, Tensor.matrix (g.forces.map Vec3.toList))]
  ++ (if g.has_cell then [(Property.stress, Tensor.matrix g.stress.toLists)] else [])

/-! ## Batching (spec §4.4), modelled from the spec -/

/-- Modelled from the spec (§3): the batched graph — concatenated per-atom
fields, globally renumbered edges, per-structure cells, the per-atom
`batch_index`, and the cumulative `ptr` boundaries. -/
structure AtomicGraphBatch where
  Z : List ℕ
  positions : List Vec3
  edges : List Edge
  cells : List Cell
  batchIndex : List ℕ
  ptr : List ℕ
deriving DecidableEq, Repr

/-- Modelled from the spec (§4.4): `AtomicGraphBatch.from_graphs` —
concatenates per-atom fields in input order, renumbers each graph's edge
indices by the cumulative atom-count offset, repeats each graph's index by its
atom count for `batch_index`, carries shifts unrenumbered and stacks cells. -/
def AtomicGraphBatch.from_graphs (gs : List AtomicGraph) : AtomicGraphBatch :=
  let counts := gs.map AtomicGraph.n_atoms
  let offsets := counts.scanl Nat.add 0
  { Z := (gs.map AtomicGraph.Z).flatten
    positions := (gs.map AtomicGraph.positions).flatten
    edges := ((gs.zip offsets).map fun p =>
      p.1.edges.map fun e => ⟨e.i + p.2, e.j + p.2, e.shift⟩).flatten
    cells := gs.map AtomicGraph.cell
    batchIndex := ((List.range gs.length).map fun t =>
      List.replicate (counts.getD t 0) t).flatten
    ptr := offsets }

def AtomicGraphBatch.n_structures (b : AtomicGraphBatch) : ℕ := b.cells.length

def AtomicGraphBatch.n_atoms (b : AtomicGraphBatch) : ℕ := b.Z.length

/-- The cell governing an edge of a batch: the cell of the structure its
source atom belongs to. -/
def AtomicGraphBatch.cellFor (b : AtomicGraphBatch) (e : Edge) : Cell :=
  b.cells.getD (b.batchIndex.getD e.i 0) 0

/-- Per-structure energies: per-atom energies segment-summed by `batch_index`. -/
def AtomicGraphBatch.energies (b : AtomicGraphBatch) : List ℚ :=
  let perAtom := atomEnergies b.positions b.cellFor b.edges b.n_atoms
  (List.range b.n_structures).map fun t =>
    (((List.range b.n_atoms).filter fun k => b.batchIndex.getD k 0 = t).map
      fun k => perAtom.getD k 0).sum

/-- Per-atom forces of a batch. -/
def AtomicGraphBatch.forces (b : AtomicGraphBatch) : List Vec3 :=
  (List.range b.n_atoms).map (forceOn b.positions b.cellFor b.edges)

/-- Per-structure stresses of a batch. -/
def AtomicGraphBatch.stresses (b : AtomicGraphBatch) : List Mat3 :=
  (List.range b.n_structures).map fun t =>
    Mat3.smul (1 / (b.cells.getD t 0).volume)
      (virial b.positions b.cellFor
        (b.edges.filter fun e => b.batchIndex.getD e.i 0 = t))

/-- Modelled from the spec (§4.5): prediction on a batch; stress requires every
structure to carry a non-trivial cell. -/
def predictBatch (b : AtomicGraphBatch) : List (Property × Tensor) :=
  [(Property.energy, Tensor.vector b.energies),
   (Property.forces, Tensor.matrix (b.forces.map Vec3.toList))]
  ++ (if b.cells.all fun c => decide (c ≠ (0 : Cell)) then
      [(Property.stress, Tensor.tensor3 (b.stresses.map Mat3.toLists))] else [])

/-- Modelled from the spec (§4.4): unbatching the `t`-th structure's slice of a
per-structure scalar prediction. -/
def AtomicGraphBatch.unbatchEnergy (b : AtomicGraphBatch) (t : ℕ) : ℚ :=
  b.energies.getD t 0

/-- Unbatching the `t`-th structure's slice of the per-atom forces, via `ptr`. -/
def AtomicGraphBatch.unbatchForces (b : AtomicGraphBatch) (t : ℕ) : List Vec3 :=
  (b.forces.drop (b.ptr.getD t 0)).take (b.ptr.getD (t + 1) 0 - b.ptr.getD t 0)

/-- Unbatching the `t`-th structure's stress. -/
def AtomicGraphBatch.unbatchStress (b : AtomicGraphBatch) (t : ℕ) : Mat3 :=
  b.stresses.getD t 0

/-! ## Concrete test structures -/

/-- The six face-neighbour unit repeats of a cubic cell. -/
def faceShifts : List IVec3 :=
  [⟨-1, 0, 0⟩, ⟨1, 0, 0⟩, ⟨0, -1, 0⟩, ⟨0, 1, 0⟩, ⟨0, 0, -1⟩, ⟨0, 0, 1⟩]

/-- The periodic single-atom test structure: one H atom at the origin in a
cubic cell of side 1, with full periodic boundary conditions. -/
def periodicAtomGraph : AtomicGraph :=
  convertToAtomicGraph [1] [⟨0, 0, 0⟩] true (diagCell 1 1 1) (11 / 10) 2

/-- The non-periodic H₂ test structure: two H atoms 1 apart, cutoff 1.5. -/
def noPbcH2 : AtomicGraph :=
  convertToAtomicGraph [1, 1] [⟨0, 0, 0⟩, ⟨0, 0, 1⟩] false (diagCell 2 2 2) (3 / 2) 1

/-- The periodic variant of the same structure: cubic cell of side 2. -/
def pbcH2 : AtomicGraph :=
  convertToAtomicGraph [1, 1] [⟨0, 0, 0⟩, ⟨0, 0, 1⟩] true (diagCell 2 2 2) (3 / 2) 1

/-- A batch of two identical periodic 2-atom graphs. -/
def h2Batch : AtomicGraphBatch := AtomicGraphBatch.from_graphs [pbcH2, pbcH2]

/-- Modelled from the spec (§4.2, §4.3): a single isolated (non-periodic) atom
converted at a given cutoff; the cell is all-zero. -/
def isolatedAtomGraph (p : Vec3) (cutoff : ℚ) (R : ℕ) : AtomicGraph :=
  convertToAtomicGraph [1] [p] false 0 cutoff R

/-! ## Structure ingestion (spec §4.1), modelled from the spec -/

/-- An auxiliary metadata value of an external structure: either numeric
tensor-convertible data, or something that is not (e.g. a string). -/
inductive MetaValue where
  | tensor (t : Tensor)
  | string (s : String)
deriving DecidableEq, Repr

/-- Whether a metadata value is convertible to a numeric tensor. -/
def MetaValue.convertible : MetaValue → Bool
  | .tensor _ => true
  | .string _ => false

/-- The shape of a metadata value's tensor ('[]' for non-tensor data). -/
def MetaValue.shape : MetaValue → List ℕ
  | .tensor t => t.shape
  | .string _ => []

/-- Modelled from the spec (§6): the external structure object — mandatory
geometry plus the free-form per-atom (`arrays`) and per-structure (`info`)
metadata stores. -/
structure ExtStructure where
  numbers : List ℕ
  positions : List Vec3
  cell : Cell
  pbc : Bool
  arrays : List (String × MetaValue)
  info : List (String × MetaValue)
deriving Repr

/-- The ingestion / extraction error taxonomy (spec §7): `missingKey` is the
`KeyError` of an explicitly requested key absent from the metadata, and
`typeUnsupported` the `ValueError` of a non-numeric value. -/
inductive ExtractError where
  | missingKey (k : String)
  | typeUnsupported (k : String)
deriving DecidableEq, Repr

/-- The reserved geometry keys, always excluded from auxiliary extraction. -/
def reservedKeys : List String := ["numbers", "positions", "cell", "pbc"]

/-- Default (exhaustive) extraction of one store: everything that is neither a
reserved geometry key nor non-numeric. -/
def extractDefault (store : List (String × MetaValue)) : List (String × MetaValue) :=
  store.filter fun p => decide (p.1 ∉ reservedKeys) && p.2.convertible

/-- Explicit allow-list extraction of one store: a requested key absent from
the store fails with `missingKey` at once, and a requested key holding a
non-numeric value fails with `typeUnsupported` at once. -/
def extractExplicit (store : List (String × MetaValue)) :
    List String → Except ExtractError (List (String × MetaValue))
  | [] => .ok []
  | k :: ks =>
    match store.lookup k with
    | none => .error (.missingKey k)
    | some v =>
      if v.convertible then
        (extractExplicit store ks).map fun rest => (k, v) :: rest
      else .error (.typeUnsupported k)

/-- Modelled from the spec (§4.1): `extract_information`, absent from `src/`
(only its tests are) — splits auxiliary metadata into the per-atom and
per-structure buckets, exhaustively by default or by explicit per-category key
lists. Returns `(atom_info, structure_info)`. -/
def extract_information (s : ExtStructure)
    (atomKeys : Option (List String) := none)
    (structureKeys : Option (List String) := none) :
    Except ExtractError (List (String × MetaValue) × List (String × MetaValue)) := do
  let atomInfo ← match atomKeys with
    | none => pure (extractDefault s.arrays)
    | some ks => extractExplicit s.arrays ks
  let structureInfo ← match structureKeys with
    | none => pure (extractDefault s.info)
    | some ks => extractExplicit s.info ks
  pure (atomInfo, structureInfo)

/-- The `test_extract_information` fixture: an H₂ structure whose metadata
stores also hold the reserved geometry keys, with `info["energy"] = -1.0` and
`arrays["forces"]` a `(2, 3)` array of zeros. -/
def h2WithLabels : ExtStructure :=
  { numbers := [1, 1]
    positions := [⟨0, 0, 0⟩, ⟨0, 0, 1⟩]
    cell := 0
    pbc := false
    arrays := [("numbers", .tensor (.vector [1, 1])),
               ("positions", .tensor (.matrix [[0, 0, 0], [0, 0, 1]])),
               ("forces", .tensor (.matrix [[0, 0, 0], [0, 0, 0]]))]
    info := [("cell", .tensor (.matrix [[0, 0, 0], [0, 0, 0], [0, 0, 0]])),
             ("pbc", .tensor (.scalar 0)),
             ("energy", .tensor (.scalar (-1)))] }

/-- `h2WithLabels` with an additional non-numeric metadata entry. -/
def h2WithString : ExtStructure :=
  { h2WithLabels with info := h2WithLabels.info ++ [("string", .string "test")] }

/-! ## Raw position access and device casting (spec §4.3), modelled from the spec -/

/-- Modelled from the spec (§4.3): the `positions` getter.  Returns whether a
user-visible warning is emitted (exactly when a non-trivial cell is present)
together with the raw positions, which are returned either way. -/
def AtomicGraph.positionsAccessed (g : AtomicGraph) : Bool × List Vec3 :=
  (g.has_cell, g.positions)

/-- A live AtomicGraph instance: the graph's data together with the device its
tensors reside on. -/
structure DeviceGraph where
  graph : AtomicGraph
  device : String
deriving DecidableEq, Repr

/-- Modelled from the spec (§4.3, §5): device casting `g.to(device)`.  The list
is the store of live instances (so that "returns a new instance" and "the
original is left untouched" are expressible); casting allocates a fresh
instance with every tensor field migrated to the target device and returns its
index, never mutating the existing entries. -/
def DeviceGraph.to (store : List DeviceGraph) (i : ℕ) (d : String) :
    List DeviceGraph × ℕ :=
  match store[i]? with
  | none => (store, i)
  | some dg => (store ++ [{ graph := dg.graph, device := d }], store.length)

/-! ## `create_from_dict` (src/src/graph_pes/config/utils.py) -/

/-- A Python value as `_create_from_dict` sees it: a string, a dictionary, an
(imported or constructed) object, or any other value. -/
inductive PyValue where
  | str (s : String)
  | dict (entries : List (String × PyValue))
  | obj (name : String) (args : List (String × PyValue))
  | other (n : ℤ)

/-- The import environment: which fully-qualified names import successfully,
and which strings exist as filesystem paths. -/
structure ImportEnv where
  importable : String → Bool
  pathExists : String → Bool

/-- `looks_importable`: the string contains a dot. -/
def looks_importable (s : String) : Bool := s.data.contains '.'

/-- `create_from_string`: import `s`, calling the imported object when the
string ends in `()`.  `none` models the `ImportError` path. -/
def create_from_string (env : ImportEnv) (s : String) : Option PyValue :=
  if s.endsWith "()" then
    if env.importable (s.dropRight 2) then some (.obj (s.dropRight 2) []) else none
  else
    if env.importable s then some (.obj s []) else none

/-- `warn_about_import_error`: warn (returning the warned-about string) only
when the string is not an existing filesystem path. -/
def warn_about_import_error (env : ImportEnv) (s : String) : List String :=
  if env.pathExists s then [] else [s]

/-- Step 2 of `_create_from_dict` on the already-processed entries: a
single-key dictionary whose key looks importable and whose value is (still) a
dictionary is imported and called with the value as keyword arguments; on
`ImportError` the warning fires and the dictionary is returned as a dictionary.
Every other shape is returned as a dictionary unchanged. -/
def finishDict (env : ImportEnv) (entries : List (String × PyValue))
    (w : List String) : PyValue × List String :=
  match entries with
  | [(k, PyValue.dict kwargs)] =>
    if looks_importable k then
      if env.importable k then (.obj k kwargs, w)
      else (.dict entries, w ++ warn_about_import_error env k)
    else (.dict entries, w)
  | _ => (.dict entries, w)

mutual

/-- Step 1 of `_create_from_dict` on one value: recurse into dictionary
values; try to import importable-looking strings, leaving the string unchanged
(with the advisory warning) on `ImportError`; leave anything else alone. -/
def processValue (env : ImportEnv) : PyValue → PyValue × List String
  | .dict sub =>
    let r := processEntries env sub
    finishDict env r.1 r.2
  | .str s =>
    if looks_importable s then
      match create_from_string env s with
      | some o => (o, [])
      | none => (.str s, warn_about_import_error env s)
    else (.str s, [])
  | .obj n a => (.obj n a, [])
  | .other n => (.other n, [])

/-- Step 1 of `_create_from_dict` over all entries, collecting warnings in
emission order. -/
def processEntries (env : ImportEnv) :
    List (String × PyValue) → List (String × PyValue) × List String
  | [] => ([], [])
  | (k, v) :: rest =>
    let r := processValue env v
    let rs := processEntries env rest
    ((k, r.1) :: rs.1, r.2 ++ rs.2)

end

/-- `_create_from_dict` (`src/src/graph_pes/config/utils.py`): recursively
create objects from the values, then treat an importable single-key dictionary
as a constructor call.  The input is deep-copied before processing (the
embedding is pure, so the input is never mutated); the warnings emitted are
returned alongside the result. -/
def create_from_dict (env : ImportEnv) (entries : List (String × PyValue)) :
    PyValue × List String :=
  let r := processEntries env entries
  finishDict env r.1 r.2

/-- An import environment in which nothing imports and no path exists. -/
def envNone : ImportEnv := ⟨fun _ => false, fun _ => false⟩

/-! ## Claim theorems -/

/-- C1: building the neighbour list for a periodic single atom in a unit cubic
cell with cutoff 1.1 yields exactly 6 edges, each a self-pair (`i = j`) with a
nonzero periodic shift to one of the 6 face-neighbour images. -/
theorem periodic_atom_six_face_edges :
    periodicAtomGraph.n_edges = 6 ∧
    (periodicAtomGraph.edges.map Edge.shift).Perm faceShifts ∧
    ∀ e ∈ periodicAtomGraph.edges,
      e.i = e.j ∧ e.shift ≠ 0 ∧ e.shift ∈ faceShifts := by
  refine ⟨by decide, by decide, by decide⟩

theorem periodic_atom_six_face_edges_witness :
    (⟨0, 0, ⟨1, 0, 0⟩⟩ : Edge).i = (⟨0, 0, ⟨1, 0, 0⟩⟩ : Edge).j ∧
    (⟨0, 0, ⟨1, 0, 0⟩⟩ : Edge).shift ≠ 0 ∧
    (⟨0, 0, ⟨1, 0, 0⟩⟩ : Edge).shift ∈ faceShifts :=
  periodic_atom_six_face_edges.2.2 ⟨0, 0, ⟨1, 0, 0⟩⟩ (by decide)

/-- C2: a batch of two identical periodic 2-atom graphs predicts energy of
shape (2,), forces of shape (4, 3) and stress of shape (2, 3, 3), and
unbatching structure 0 or 1 recovers exactly the energy, forces and stress
computed on the single graph alone. -/
theorem batched_prediction_shapes_and_unbatch :
    ((predictBatch h2Batch).lookup Property.energy).map Tensor.shape = some [2] ∧
    ((predictBatch h2Batch).lookup Property.forces).map Tensor.shape = some [4, 3] ∧
    ((predictBatch h2Batch).lookup Property.stress).map Tensor.shape = some [2, 3, 3] ∧
    h2Batch.unbatchEnergy 0 = pbcH2.energy ∧
    h2Batch.unbatchEnergy 1 = pbcH2.energy ∧
    h2Batch.unbatchForces 0 = pbcH2.forces ∧
    h2Batch.unbatchForces 1 = pbcH2.forces ∧
    h2Batch.unbatchStress 0 = pbcH2.stress ∧
    h2Batch.unbatchStress 1 = pbcH2.stress := by
  decide

/-- C3: requesting stress on the cell-less 2-atom structure fails as a key
lookup failure (the returned mapping lacks the `stress` key, the default keys
being energy and forces), while the same model on the periodic variant of the
same structure returns forces of shape (2, 3) and stress of shape (3, 3). -/
theorem stress_requires_cell :
    (predict noPbcH2).lookup Property.stress = none ∧
    (predict noPbcH2).map Prod.fst = [Property.energy, Property.forces] ∧
    ((predict pbcH2).lookup Property.forces).map Tensor.shape = some [2, 3] ∧
    ((predict pbcH2).lookup Property.stress).map Tensor.shape = some [3, 3] := by
  decide

/-- C4: every isolated non-periodic single atom, whatever its position, the
cutoff and the search range, yields a graph with no edges, and its force
prediction is exactly the (1, 3) zero tensor. -/
theorem isolated_atom_no_edges_zero_forces (p : Vec3) (cutoff : ℚ) (R : ℕ) :
    (isolatedAtomGraph p cutoff R).n_edges = 0 ∧
    (predict (isolatedAtomGraph p cutoff R)).lookup Property.forces
      = some (Tensor.matrix [[0, 0, 0]]) := by
  refine ⟨rfl, ?_⟩
  have hz : Vec3.smul (-1) (vecSum ([] : List Vec3)) = 0 := rfl
  calc (predict (isolatedAtomGraph p cutoff R)).lookup Property.forces
      = some (Tensor.matrix [Vec3.toList (Vec3.smul (-1) (vecSum []))]) := rfl
    _ = some (Tensor.matrix [[0, 0, 0]]) := by rw [hz]; decide

/-- C6: default extraction on the labelled H₂ structure puts `energy = -1.0`
in `structure_info` and the (2, 3) `forces` array in `atom_info`, and the
reserved geometry keys appear in neither bucket although they are present in
the metadata stores. -/
theorem extract_information_defaults :
    ∃ atomInfo structureInfo,
      extract_information h2WithLabels = .ok (atomInfo, structureInfo) ∧
      structureInfo.lookup "energy" = some (.tensor (.scalar (-1))) ∧
      (atomInfo.lookup "forces").map MetaValue.shape = some [2, 3] ∧
      ∀ k ∈ reservedKeys, atomInfo.lookup k = none ∧ structureInfo.lookup k = none := by
  refine ⟨_, _, rfl, ?_, ?_, ?_⟩ <;> decide

/-- C7: explicit-key extraction fails with the `MissingKey` error (a
`KeyError`) as soon as a requested key is absent from the metadata, and with
the `TypeUnsupported` error (a `ValueError`) as soon as a requested key's value
is not numeric — in particular on the test structure's missing key and string
value. -/
theorem extract_information_errors :
    (∀ (st : ExtStructure) (k : String), st.info.lookup k = none →
      extract_information st none (some [k]) = .error (.missingKey k)) ∧
    (∀ (st : ExtStructure) (k s : String), st.info.lookup k = some (.string s) →
      extract_information st none (some [k]) = .error (.typeUnsupported k)) ∧
    extract_information h2WithString none (some ["missing"])
      = .error (.missingKey "missing") ∧
    extract_information h2WithString none (some ["string"])
      = .error (.typeUnsupported "string") := by
  refine ⟨?_, ?_, rfl, rfl⟩
  · intro st k h
    simp [extract_information, extractExplicit, h]
  · intro st k s h
    simp [extract_information, extractExplicit, h, MetaValue.convertible]

theorem extract_information_errors_witness :
    extract_information h2WithLabels none (some ["absent"])
      = .error (.missingKey "absent") :=
  extract_information_errors.1 h2WithLabels "absent" (by decide)

/-- C5: every edge produced by the neighbour-list builder, periodic or not and
for every search range, has its neighbour vector — recomputed from the stored
positions, cell and shifts — within the cutoff: its squared norm is at most
`cutoff²`. -/
theorem neighbour_distances_within_cutoff
    (pos : List Vec3) (cell : Cell) (periodic : Bool) (cutoff : ℚ) (R : ℕ)
    (e : Edge) (he : e ∈ buildNeighbourList pos cell periodic cutoff R) :
    Vec3.sqNorm (neighbourVector pos cell e) ≤ cutoff * cutoff := by
  unfold buildNeighbourList at he
  cases periodic with
  | false =>
    simp only [Bool.false_eq_true, if_false, List.mem_flatMap, List.mem_filterMap] at he
    obtain ⟨i, hi, j, hj, hfe⟩ := he
    split at hfe
    · exact absurd hfe (by simp)
    · split at hfe
      · obtain rfl : Edge.mk i j 0 = e := Option.some.inj hfe
        assumption
      · exact absurd hfe (by simp)
  | true =>
    simp only [if_true, List.mem_flatMap, List.mem_filterMap] at he
    obtain ⟨s, hs, i, hi, j, hj, hfe⟩ := he
    split at hfe
    · exact absurd hfe (by simp)
    · split at hfe
      · obtain rfl : Edge.mk i j s = e := Option.some.inj hfe
        assumption
      · exact absurd hfe (by simp)

theorem neighbour_distances_within_cutoff_witness :
    Vec3.sqNorm (neighbourVector [⟨0, 0, 0⟩, ⟨0, 0, 1⟩] 0 ⟨0, 1, 0⟩) ≤ 2 * 2 :=
  neighbour_distances_within_cutoff [⟨0, 0, 0⟩, ⟨0, 0, 1⟩] 0 false 2 0
    ⟨0, 1, 0⟩ (by decide)

/-- C8: the positions getter warns exactly when a nonzero cell is present —
and never when the cell is absent — while the raw positions are returned
either way (the warning is advisory only). -/
theorem position_access_warns_iff_cell (g : AtomicGraph) :
    (g.positionsAccessed.2 = g.positions) ∧
    (g.positionsAccessed.1 = true ↔ g.cell ≠ (0 : Cell)) := by
  refine ⟨rfl, ?_⟩
  simp [AtomicGraph.positionsAccessed, AtomicGraph.has_cell]

/-- C9: casting a live graph to a target device returns a fresh instance — its
index differs from the original's — holding the original's data with every
tensor field migrated to the target device, while every existing instance,
the original included, is left unchanged. -/
theorem device_cast_new_instance (store : List DeviceGraph) (i : ℕ) (d : String)
    (dg : DeviceGraph) (h : store[i]? = some dg) :
    (DeviceGraph.to store i d).2 ≠ i ∧
    (DeviceGraph.to store i d).1[(DeviceGraph.to store i d).2]?
      = some { graph := dg.graph, device := d } ∧
    ∀ m, m < store.length → (DeviceGraph.to store i d).1[m]? = store[m]? := by
  have hi : i < store.length := by
    by_contra hlt
    rw [List.getElem?_eq_none (Nat.le_of_not_lt hlt)] at h
    exact Option.noConfusion h
  simp only [DeviceGraph.to, h]
  refine ⟨by omega, ?_, ?_⟩
  · simp
  · intro m hm
    exact List.getElem?_append_left hm

theorem device_cast_new_instance_witness :
    (DeviceGraph.to [⟨noPbcH2, "cpu"⟩] 0 "cuda").2 ≠ 0 ∧
    (DeviceGraph.to [⟨noPbcH2, "cpu"⟩] 0
        "cuda").1[(DeviceGraph.to [⟨noPbcH2, "cpu"⟩] 0 "cuda").2]?
      = some { graph := noPbcH2, device := "cuda" } :=
  ⟨(device_cast_new_instance [⟨noPbcH2, "cpu"⟩] 0 "cuda" ⟨noPbcH2, "cpu"⟩ rfl).1,
   (device_cast_new_instance [⟨noPbcH2, "cpu"⟩] 0 "cuda" ⟨noPbcH2, "cpu"⟩ rfl).2.1⟩

/-- Step 1 of `_create_from_dict` keeps a string entry whose import fails. -/
lemma processEntries_mem_str (env : ImportEnv) (entries : List (String × PyValue))
    (k s : String) (hmem : (k, PyValue.str s) ∈ entries)
    (hlooks : looks_importable s = true) (hfail : create_from_string env s = none) :
    (k, PyValue.str s) ∈ (processEntries env entries).1 := by
  induction entries with
  | nil => cases hmem
  | cons hd tl ih =>
    rw [processEntries]
    rcases List.mem_cons.mp hmem with heq | hmem2
    · subst heq
      simp [processValue, hlooks, hfail]
    · exact List.mem_cons_of_mem _ (ih hmem2)

/-- Step 2 of `_create_from_dict` either returns the processed entries as a
dictionary, or calls the importable single key on its dictionary value. -/
lemma finishDict_dict_or (env : ImportEnv) (new : List (String × PyValue))
    (w : List String) :
    (∃ w2, finishDict env new w = (.dict new, w2)) ∨
    (∃ k kwargs, new = [(k, PyValue.dict kwargs)] ∧
      finishDict env new w = (.obj k kwargs, w)) := by
  unfold finishDict
  split
  · split
    · split
      · right; exact ⟨_, _, rfl, rfl⟩
      · left; exact ⟨_, rfl⟩
    · left; exact ⟨_, rfl⟩
  · left; exact ⟨_, rfl⟩

/-- C10: `create_from_dict` never raises on a failed import.  A string value
containing a dot whose import fails is left in the result unchanged, with the
warning fired exactly when the string is not an existing filesystem path; and
a single-key dictionary whose key fails to import is returned as a dictionary
— its single key intact, its value recursively processed — instead of being
called.  (The input itself is deep-copied and never mutated: the embedding of
`_create_from_dict` is a pure function of the input.) -/
theorem create_from_dict_import_failures (env : ImportEnv) :
    (∀ s : String, looks_importable s = true → create_from_string env s = none →
      processValue env (.str s) = (.str s, warn_about_import_error env s) ∧
      warn_about_import_error env s = if env.pathExists s then [] else [s]) ∧
    (∀ (entries : List (String × PyValue)) (k s : String),
      (k, PyValue.str s) ∈ entries → looks_importable s = true →
      create_from_string env s = none →
      ∃ res w, create_from_dict env entries = (.dict res, w) ∧
        (k, PyValue.str s) ∈ res) ∧
    (∀ (k : String) (kwargs : List (String × PyValue)),
      looks_importable k = true → env.importable k = false →
      ∃ res w, create_from_dict env [(k, PyValue.dict kwargs)] = (.dict res, w) ∧
        res = [(k, (processValue env (PyValue.dict kwargs)).1)]) := by
  refine ⟨?_, ?_, ?_⟩
  · intro s hlooks hfail
    exact ⟨by simp [processValue, hlooks, hfail], rfl⟩
  · intro entries k s hmem hlooks hfail
    have hmem2 := processEntries_mem_str env entries k s hmem hlooks hfail
    rcases finishDict_dict_or env (processEntries env entries).1
        (processEntries env entries).2 with ⟨w2, hfd⟩ | ⟨k2, kwargs, hshape, hfd⟩
    · refine ⟨(processEntries env entries).1, w2, ?_, hmem2⟩
      rw [create_from_dict, hfd]
    · rw [hshape] at hmem2
      simp at hmem2
  · intro k kwargs hlooks hfail
    have hpe : processEntries env [(k, PyValue.dict kwargs)]
        = ([(k, (processValue env (PyValue.dict kwargs)).1)],
           (processValue env (PyValue.dict kwargs)).2 ++ []) := by
      rw [processEntries, processEntries]
    rw [create_from_dict, hpe]
    rcases hv : (processValue env (PyValue.dict kwargs)).1 with s2 | sub | ⟨n, a⟩ | n
    · exact ⟨_, _, rfl, rfl⟩
    · refine ⟨[(k, PyValue.dict sub)],
        ((processValue env (PyValue.dict kwargs)).2 ++ []) ++ warn_about_import_error env k,
        ?_, rfl⟩
      simp [finishDict, hlooks, hfail]
    · exact ⟨_, _, rfl, rfl⟩
    · exact ⟨_, _, rfl, rfl⟩

theorem create_from_dict_import_failures_witness :
    processValue envNone (.str "a.b")
      = (.str "a.b", warn_about_import_error envNone "a.b") ∧
    warn_about_import_error envNone "a.b"
      = if envNone.pathExists "a.b" then [] else ["a.b"] :=
  (create_from_dict_import_failures envNone).1 "a.b" (by decide)
    (by simp [create_from_string, envNone])
